import Mathlib

/-!
Verification of the mesa_capitalist_sim core simulation engine.

This file is a shallow embedding of the simulation core:
`worker_agent_simple.py` (SimpleWorkerAgent), `firm_agent_simple.py`
(SimpleFirmAgent) and `run_simple_simulation.py` (SimpleCapitalistModel).
Python floats are modelled as rationals, Python lists as Lean lists, and
every random draw becomes an explicit argument of the function that
consumed it.  Operations that can raise in Python (division by zero)
return an `Option`, with `none` standing for the raised exception.
-/

set_option maxHeartbeats 1000000

namespace MesaSim

/-- Worker skill levels: `"low"`, `"medium"`, `"high"` strings in the source. -/
inductive Skill where
  | low
  | medium
  | high
  deriving DecidableEq, Repr

/-- State of `SimpleWorkerAgent` (worker_agent_simple.py, `__init__`).
The `model` back-reference is threaded explicitly where needed, and the
`employer` object reference is an optional firm id. -/
structure Worker where
  unique_id : Nat
  skill_level : Skill
  work_hours : Rat
  worked_overtime : Rat
  wage : Rat
  is_employed : Bool
  employer : Option Int
  wealth : Rat
  debt : Rat
  total_wages_earned : Rat
  total_taxes_paid : Rat
  weeks_unemployed : Nat
  financial_stress : Rat
  debt_capacity : Rat
  interest_rate : Rat
  is_bankrupt : Bool
  productivity : Rat
  owns_firm : Bool
  basic_needs : Rat
  deriving DecidableEq, Repr

namespace Worker

/-- `_determine_skill_level`: thresholds 0.65 / 0.85 on one uniform draw. -/
def determine_skill_level (u : Rat) : Skill :=
  if u < 0.65 then Skill.low
  else if u < 0.85 then Skill.medium
  else Skill.high

/-- Ownership chance by skill in `_determine_firm_ownership`. -/
def ownership_chance (s : Skill) : Rat :=
  match s with
  | Skill.high => 0.15
  | Skill.medium => 0.05
  | Skill.low => 0.01

/-- Skill multiplier applied to the base weekly needs of 500 in `__init__`. -/
def needs_multiplier (s : Skill) : Rat :=
  match s with
  | Skill.low => 0.8
  | Skill.medium => 1.0
  | Skill.high => 1.3

/-- `SimpleWorkerAgent.__init__` with the random draws made explicit:
`skill_u` drives `_determine_skill_level`, `initial_wealth` is the
`_get_initial_wealth` draw, `own_u` drives `_determine_firm_ownership`.
A negative initial wealth draw is converted entirely into debt and wealth
is reset to 0. -/
def create (uid : Nat) (work_hours skill_u initial_wealth cap_draw rate_draw
    prod_draw own_u : Rat) : Worker :=
  let skill := determine_skill_level skill_u
  let wealth0 := initial_wealth
  let debt0 := if wealth0 < 0 then max 0 (-wealth0) else 0
  let wealth1 := if 0 < debt0 then 0 else wealth0
  { unique_id := uid
    skill_level := skill
    work_hours := work_hours
    worked_overtime := 0
    wage := 0
    is_employed := false
    employer := none
    wealth := wealth1
    debt := debt0
    total_wages_earned := 0
    total_taxes_paid := 0
    weeks_unemployed := 0
    financial_stress := 0
    debt_capacity := cap_draw
    interest_rate := rate_draw
    is_bankrupt := false
    productivity := prod_draw
    owns_firm := decide (own_u < ownership_chance skill)
    basic_needs := 500 * needs_multiplier skill }

/-- `get_productive_value`: `work_hours * productivity * 25.0`. -/
def get_productive_value (w : Worker) : Rat :=
  w.work_hours * w.productivity * 25

/-- `get_unmet_needs`: `basic_needs - min(wealth, basic_needs)`. -/
def get_unmet_needs (w : Worker) : Rat :=
  w.basic_needs - min w.wealth w.basic_needs

/-- `calculate_financial_stress`: sum of the unemployment (0.4), debt
(`debt/debt_capacity * 0.3`) and unmet-needs (`min(ratio,1) * 0.3`)
contributions, capped at 1. -/
def calculate_financial_stress (w : Worker) : Rat :=
  let unemployment_stress := if w.is_employed then 0 else (0.4 : Rat)
  let debt_stress := if 0 < w.debt then w.debt / w.debt_capacity * 0.3 else 0
  let unmet_stress := min (get_unmet_needs w / w.basic_needs) 1 * 0.3
  min (unemployment_stress + debt_stress + unmet_stress) 1

/-- Base hourly reservation wage table in `get_reservation_wage`. -/
def base_reservation (s : Skill) : Rat :=
  match s with
  | Skill.high => 20
  | Skill.medium => 12
  | Skill.low => 8

/-- `get_reservation_wage`: base hourly floor by skill; if unemployed for
more than 4 weeks, multiplied by `min(0.7, 1 - weeks_unemployed * 0.05)`;
if in debt, multiplied by `max(0.6, 1 - debt / debt_capacity * 0.4)`;
converted to a weekly wage with `work_hours`. -/
def get_reservation_wage (w : Worker) : Rat :=
  let reservation0 := base_reservation w.skill_level
  let reservation1 :=
    if ¬ w.is_employed ∧ 4 < w.weeks_unemployed then
      reservation0 * min 0.7 (1 - (w.weeks_unemployed : Rat) * 0.05)
    else reservation0
  let reservation2 :=
    if 0 < w.debt then
      reservation1 * max 0.6 (1 - w.debt / w.debt_capacity * 0.4)
    else reservation1
  reservation2 * w.work_hours

/-- `work_for_firm(firm, wage_rate)`: returns immediately when already
employed; otherwise records employment, pays taxed wages into wealth and
a possible ownership dividend.  `firm_uid` and `firm_profit` are the used
fields of the firm argument; `tax_draw` is the `get_tax_rate()` draw and
`share_draw` the ownership-share draw. -/
def work_for_firm (w : Worker) (firm_uid : Int) (firm_profit wage_rate
    tax_draw share_draw : Rat) : Worker :=
  if w.is_employed then w
  else
    let w1 := { w with is_employed := true, employer := some firm_uid,
                       wage := wage_rate, weeks_unemployed := 0 }
    let gross_pay := w1.wage * w1.work_hours
    let taxes := gross_pay * tax_draw
    let net_pay := gross_pay - taxes
    let w2 := { w1 with wealth := w1.wealth + net_pay,
                        total_wages_earned := w1.total_wages_earned + gross_pay,
                        total_taxes_paid := w1.total_taxes_paid + taxes }
    if w2.owns_firm ∧ 0 < firm_profit then
      { w2 with wealth := w2.wealth + firm_profit * share_draw }
    else w2

/-- `lose_job`: unemployed, no employer, wage forced to 0. -/
def lose_job (w : Worker) : Worker :=
  { w with is_employed := false, employer := none, wage := 0 }

/-- `handle_debt_mechanics`: when in debt, accrue weekly interest
`debt * interest_rate / 52`, attempt the minimum payment
`max(debt * 0.02, 20)` when wealth covers it, and go bankrupt (debt capped
at capacity) when debt exceeds capacity and unmet needs exceed twice the
basic needs. -/
def handle_debt_mechanics (w : Worker) : Worker :=
  if 0 < w.debt then
    let weekly_interest := w.debt * (w.interest_rate / 52)
    let w1 := { w with debt := w.debt + weekly_interest }
    let min_payment := max (w1.debt * 0.02) 20
    let w2 : Worker :=
      if min_payment ≤ w1.wealth then
        let payment := min min_payment w1.debt
        { w1 with wealth := w1.wealth - payment, debt := w1.debt - payment }
      else w1
    if w2.debt_capacity < w2.debt ∧ w2.basic_needs * 2 < get_unmet_needs w2 then
      { w2 with is_bankrupt := true, debt := w2.debt_capacity }
    else w2
  else w

/-- Wealth decay rates for unemployed workers by skill (`step`). -/
def decay_rate (s : Skill) : Rat :=
  match s with
  | Skill.high => 0.02
  | Skill.medium => 0.03
  | Skill.low => 0.05

/-- `SimpleWorkerAgent.step`: financial stress, needs payment (unemployed
workers convert the shortfall into debt; employed workers pay only when
wealth covers the cost), debt mechanics, wealth decay while unemployed and
the high-skill stochastic growth branch.  `grow_u` is the 30%-chance draw
and `growth_draw` the uniform factor in `[1.001, 1.003]`. -/
def step (w : Worker) (grow_u growth_draw : Rat) : Worker :=
  let w0 := { w with financial_stress := calculate_financial_stress w }
  let w1 :=
    if ¬ w0.is_employed then
      let wa := { w0 with weeks_unemployed := w0.weeks_unemployed + 1 }
      if wa.basic_needs ≤ wa.wealth then
        { wa with wealth := wa.wealth - wa.basic_needs }
      else
        { wa with debt := wa.debt + (wa.basic_needs - wa.wealth), wealth := 0 }
    else
      if w0.basic_needs ≤ w0.wealth then
        { w0 with wealth := w0.wealth - w0.basic_needs }
      else w0
  let w2 := handle_debt_mechanics w1
  let w3 :=
    if ¬ w2.is_employed ∧ 0 < w2.wealth then
      { w2 with wealth := w2.wealth * (1 - decay_rate w2.skill_level) }
    else w2
  if w3.skill_level = Skill.high ∧ 10000 < w3.wealth ∧ grow_u < 0.3 then
    { w3 with wealth := w3.wealth * growth_draw }
  else w3

end Worker

/-- `SimpleWorkerAgent.get_debt_to_income_ratio`: infinite (here `none`)
when the wage is 0 with positive debt, or when the annualized income
`wage * 52` is not positive; otherwise `debt / (wage * 52)`. -/
def get_debt_to_income (w : Worker) : Option Rat :=
  if w.wage = 0 then
    if 0 < w.debt then none else some 0
  else
    let annual_income := w.wage * 52
    if 0 < annual_income then some (w.debt / annual_income) else none

/-- The indexed sum `sum(xi * (n - i) for i, xi in enumerate(x))` inside
`compute_gini`, with the running enumeration index made explicit. -/
def giniB : List Rat → Rat → Rat → Rat
  | [], _, _ => 0
  | xi :: rest, n, i => xi * (n - i) + giniB rest n (i + 1)

/-- `SimpleCapitalistModel.compute_gini` applied to a list of wealth
values: sort ascending, let `B = Σ x[i]*(n-i) / (n * Σ x)` and return
`1 + 1/n - 2B`.  The Python division raises `ZeroDivisionError` exactly
when `n * Σ x = 0`, modelled as `none`. -/
def compute_gini (wealths : List Rat) : Option Rat :=
  let x := wealths.insertionSort (fun a b => a ≤ b)
  let n := x.length
  let denom := (n : Rat) * x.sum
  if denom = 0 then none
  else some (1 + 1 / (n : Rat) - 2 * (giniB x (n : Rat) 0 / denom))

/-- State of `SimpleFirmAgent` (firm_agent_simple.py, `__init__`).  The
worker roster is the Python list `self.workers`, held here as a list of
worker ids into the model's worker sequence (duplicates are possible,
exactly as repeated `append` calls allow in the source). -/
structure Firm where
  unique_id : Int
  capital : Rat
  profit : Rat
  total_surplus_value : Rat
  wages_paid : Rat
  taxes_paid : Rat
  workers : List Nat
  max_workers : Nat
  preferred_skill_mix : Skill → Rat
  wage_rates : Skill → Rat
  tax_rate : Rat
  wage_share : Rat
  surplus_value_rate : Rat
  productivity_factor : Rat
  base_wage_rate : Rat
  demand_multiplier : Rat
  hiring_aggressiveness : Rat
  firing_threshold : Rat

/-- The random draws consumed by `SimpleFirmAgent.__init__`. -/
structure FirmDraws where
  capital : Rat
  max_workers : Nat
  pref_high : Rat
  pref_medium : Rat
  pref_low : Rat
  rate_high : Rat
  rate_medium : Rat
  rate_low : Rat
  tax_rate : Rat
  wage_share : Rat
  productivity_factor : Rat
  base_wage_rate : Rat
  demand_multiplier : Rat
  hiring_aggressiveness : Rat
  firing_threshold : Rat

/-- `_determine_skill_preferences` applied to the three preference draws:
normalize so the preferred fractions sum to 1. -/
def normalize_preferences (d : FirmDraws) : Skill → Rat :=
  let total := d.pref_high + d.pref_medium + d.pref_low
  fun s =>
    match s with
    | Skill.high => d.pref_high / total
    | Skill.medium => d.pref_medium / total
    | Skill.low => d.pref_low / total

/-- `SimpleFirmAgent.__init__` with all random draws made explicit. -/
def Firm.create (uid : Int) (d : FirmDraws) : Firm :=
  { unique_id := uid
    capital := d.capital
    profit := 0
    total_surplus_value := 0
    wages_paid := 0
    taxes_paid := 0
    workers := []
    max_workers := d.max_workers
    preferred_skill_mix := normalize_preferences d
    wage_rates := fun s =>
      match s with
      | Skill.high => d.rate_high
      | Skill.medium => d.rate_medium
      | Skill.low => d.rate_low
    tax_rate := d.tax_rate
    wage_share := d.wage_share
    surplus_value_rate := 1 - d.wage_share
    productivity_factor := d.productivity_factor
    base_wage_rate := d.base_wage_rate
    demand_multiplier := d.demand_multiplier
    hiring_aggressiveness := d.hiring_aggressiveness
    firing_threshold := d.firing_threshold }

/-- State of `SimpleCapitalistModel` (run_simple_simulation.py).  Worker
objects live in `worker_agents`, indexed by their id; the employment
partitions hold worker ids. -/
structure Model where
  num_workers : Int
  num_firms : Int
  num_owners : Int
  price_index : Rat
  inflation_rate : Rat
  employed_workers : List Nat
  unemployed_workers : List Nat
  worker_agents : List Worker
  firm_agents : List Firm

/-- A placeholder worker used for out-of-range id lookups (Python would
raise an `IndexError`; all claims constrain ids to be in range). -/
def defaultWorker : Worker :=
  { unique_id := 0, skill_level := Skill.low, work_hours := 40,
    worked_overtime := 0, wage := 0, is_employed := false, employer := none,
    wealth := 0, debt := 0, total_wages_earned := 0, total_taxes_paid := 0,
    weeks_unemployed := 0, financial_stress := 0, debt_capacity := 1,
    interest_rate := 0, is_bankrupt := false, productivity := 1,
    owns_firm := false, basic_needs := 500 }

/-- Dereference a worker id, the counterpart of following a Python object
reference into the model's worker population. -/
def Model.getWorker (m : Model) (wid : Nat) : Worker :=
  m.worker_agents.getD wid defaultWorker

/-- Overwrite the stored state of worker `wid`, the counterpart of a
mutation of the shared worker object. -/
def Model.setWorker (m : Model) (wid : Nat) (w : Worker) : Model :=
  { m with worker_agents := m.worker_agents.set wid w }

namespace Firm

/-- The per-skill roster count taken inside `get_current_skill_mix`. -/
def skill_count (f : Firm) (m : Model) (s : Skill) : Nat :=
  (f.workers.filter (fun wid => (m.getWorker wid).skill_level = s)).length

/-- `get_current_skill_mix`: all-zero when the roster is empty, otherwise
each skill count divided by the roster size. -/
def get_current_skill_mix (f : Firm) (m : Model) (s : Skill) : Rat :=
  if f.workers.isEmpty then 0
  else (skill_count f m s : Rat) / (f.workers.length : Rat)

/-- `calculate_worker_wage_offer`: the skill-indexed base hourly rate
times a random multiplier (drawn in `[1.1, 1.3]` when the firm is below
its preferred share for that skill, else in `[0.8, 1.0]`), converted to a
weekly wage and floored at the worker's reservation wage.  `mult_hi` and
`mult_lo` are the two possible uniform draws. -/
def calculate_worker_wage_offer (f : Firm) (m : Model) (wid : Nat)
    (mult_hi mult_lo : Rat) : Rat :=
  let w := m.getWorker wid
  let base_hourly_rate := f.wage_rates w.skill_level
  let wage_multiplier :=
    if get_current_skill_mix f m w.skill_level <
        f.preferred_skill_mix w.skill_level then mult_hi
    else mult_lo
  let weekly_wage := base_hourly_rate * wage_multiplier * w.work_hours
  max weekly_wage (Worker.get_reservation_wage w)

/-- `hire_worker(worker, hourly_wage)`: append the worker to the roster,
run the worker's `work_for_firm`, then move the id from the unemployed to
the employed partition (each update guarded by a membership test in the
source, hence `erase` / conditional append here). -/
def hire_worker (f : Firm) (m : Model) (wid : Nat) (hourly_wage
    tax_draw share_draw : Rat) : Firm × Model :=
  let f1 := { f with workers := f.workers ++ [wid] }
  let w := m.getWorker wid
  let w1 := Worker.work_for_firm w f.unique_id f.profit hourly_wage
    tax_draw share_draw
  let m1 := m.setWorker wid w1
  let m2 := { m1 with
    unemployed_workers := m1.unemployed_workers.erase wid,
    employed_workers :=
      if wid ∈ m1.employed_workers then m1.employed_workers
      else m1.employed_workers ++ [wid] }
  (f1, m2)

/-- `should_hire_worker`: for a worker not already on a roster with spare
capacity, compute the hire probability (0.8 below the preferred mix else
0.3, scaled by 1.5 when profitable or by 0.3 when losing more than 1000)
and on a successful draw `u < probability` immediately hire the worker
at `calculate_worker_wage_offer` (note: the weekly offer is passed as the
`hourly_wage` argument, exactly as in the source). -/
def should_hire_worker (f : Firm) (m : Model) (wid : Nat)
    (u mult_hi mult_lo tax_draw share_draw : Rat) : Bool × Firm × Model :=
  if wid ∈ f.workers then (false, f, m)
  else if f.max_workers ≤ f.workers.length then (false, f, m)
  else
    let w := m.getWorker wid
    let p0 : Rat :=
      if get_current_skill_mix f m w.skill_level <
          f.preferred_skill_mix w.skill_level then 0.8
      else 0.3
    let hire_probability :=
      if 0 < f.profit then p0 * 1.5
      else if f.profit < -1000 then p0 * 0.3
      else p0
    if u < hire_probability then
      let offer := calculate_worker_wage_offer f m wid mult_hi mult_lo
      let r := hire_worker f m wid offer tax_draw share_draw
      (true, r.1, r.2)
    else (false, f, m)

/-- `fire_worker`: when the worker is on the roster, remove its first
occurrence, run the worker's `lose_job`, and move the id from the
employed to the unemployed partition. -/
def fire_worker (f : Firm) (m : Model) (wid : Nat) : Firm × Model × Bool :=
  if wid ∈ f.workers then
    let f1 := { f with workers := f.workers.erase wid }
    let m1 := m.setWorker wid (Worker.lose_job (m.getWorker wid))
    let m2 := { m1 with
      employed_workers := m1.employed_workers.erase wid,
      unemployed_workers :=
        if wid ∈ m1.unemployed_workers then m1.unemployed_workers
        else m1.unemployed_workers ++ [wid] }
    (f1, m2, true)
  else (f, m, false)

/-- The firing branch of `_make_employment_decisions`: only when
`profit < -500` and the roster has more than 5 workers, with probability
0.45 (`u < 0.45`) fire one uniformly chosen roster worker
(`choice_draw` selects the `random.choice` index). -/
def firing_decision (f : Firm) (m : Model) (u : Rat) (choice_draw : Nat) :
    Firm × Model :=
  if f.profit < -500 ∧ 5 < f.workers.length then
    if u < 0.45 then
      let wid := f.workers.getD (choice_draw % f.workers.length) 0
      let r := fire_worker f m wid
      (r.1, r.2.1)
    else (f, m)
  else (f, m)

/-- One iteration of the hiring loop in `_make_employment_decisions` for
the candidate `wid` drawn from the unemployed pool: break when the roster
reached capacity; otherwise call `should_hire_worker` (which itself hires
on success) and, when it reported a hire, recompute a wage offer and call
`hire_worker` a second time whenever the offer meets the candidate's
reservation wage (now dividing by `work_hours`). -/
def hiring_iteration (f : Firm) (m : Model) (wid : Nat)
    (u mult_hi1 mult_lo1 tax1 share1 mult_hi2 mult_lo2 tax2 share2 : Rat) :
    Firm × Model :=
  if f.max_workers ≤ f.workers.length then (f, m)
  else
    let r := should_hire_worker f m wid u mult_hi1 mult_lo1 tax1 share1
    if r.1 then
      let offer := calculate_worker_wage_offer r.2.1 r.2.2 wid mult_hi2 mult_lo2
      if Worker.get_reservation_wage (Model.getWorker r.2.2 wid) ≤ offer then
        hire_worker r.2.1 r.2.2 wid
          (offer / (Model.getWorker r.2.2 wid).work_hours) tax2 share2
      else (r.2.1, r.2.2)
    else (r.2.1, r.2.2)

/-- The random draws consumed for one worker of the production loop in
`SimpleFirmAgent.step`: the two possible wage-offer multipliers and the
tax and ownership-share draws inside `work_for_firm`. -/
structure PayDraws where
  mult_hi : Rat
  mult_lo : Rat
  tax_draw : Rat
  share_draw : Rat

/-- The production loop of `SimpleFirmAgent.step`: for every roster
worker accumulate the productive value, compute a wage offer, call the
worker's `work_for_firm` with the hourly-converted offer, and add the
worker's (possibly updated) `wage` field to `wages_paid`. -/
def production_loop : List Nat → Firm → Model → (Nat → PayDraws) → Nat →
    Rat → Rat × Firm × Model
  | [], f, m, _, _, total => (total, f, m)
  | wid :: rest, f, m, draws, k, total =>
    let w := m.getWorker wid
    let worker_value := Worker.get_productive_value w
    let d := draws k
    let offer := calculate_worker_wage_offer f m wid d.mult_hi d.mult_lo
    let w1 := Worker.work_for_firm w f.unique_id f.profit
      (offer / w.work_hours) d.tax_draw d.share_draw
    let m1 := m.setWorker wid w1
    let f1 := { f with wages_paid := f.wages_paid + w1.wage }
    production_loop rest f1 m1 draws (k + 1) (total + worker_value)

/-- The production-and-settlement part of `SimpleFirmAgent.step` (up to,
but not including, `_make_employment_decisions`): reset surplus and
wages, run the production loop over the roster, compute surplus value,
corporate taxes (floored at 0), after-tax profit and accumulate it into
capital. -/
def produce (f : Firm) (m : Model) (draws : Nat → PayDraws) : Firm × Model :=
  let f0 := { f with total_surplus_value := 0, wages_paid := 0 }
  let r := production_loop f0.workers f0 m draws 0 0
  let total_production_value := r.1
  let f1 := r.2.1
  let m1 := r.2.2
  let f2 := { f1 with
    total_surplus_value := total_production_value - f1.wages_paid }
  let gross_profit := f2.total_surplus_value
  let taxes := max 0 (gross_profit * f2.tax_rate)
  let f3 := { f2 with taxes_paid := taxes, profit := gross_profit - taxes }
  let f4 := { f3 with capital := f3.capital + f3.profit }
  (f4, m1)

end Firm

/-- `SimpleCapitalistModel.get_wage_share`: total wages over total output,
0 when total output is not positive. -/
def get_wage_share (m : Model) : Rat :=
  let total_wages := (m.worker_agents.map Worker.wage).sum
  let total_surplus := (m.firm_agents.map Firm.total_surplus_value).sum
  let total_output := total_wages + total_surplus
  if 0 < total_output then total_wages / total_output else 0

/-- `SimpleCapitalistModel.get_avg_exploitation_rate`: over currently
employed workers, sum `1 - wage / productive_value` for each worker whose
productive value is positive, divided by the number of employed workers;
0 when no one is employed. -/
def get_avg_exploitation_rate (m : Model) : Rat :=
  let employed := m.worker_agents.filter (fun w => w.is_employed)
  if employed.isEmpty then 0
  else
    let total_exploitation := (employed.map (fun w =>
      let value_produced := Worker.get_productive_value w
      if 0 < value_produced then 1 - w.wage / value_produced else 0)).sum
    total_exploitation / ((employed.length : Nat) : Rat)

/-- `SimpleCapitalistModel.get_avg_debt_to_income`: over employed workers
with strictly positive wage, average the finite debt-to-income values
(`inf` results are skipped); 0 when no worker qualifies or no finite
value remains. -/
def get_avg_debt_to_income (m : Model) : Rat :=
  let employed := m.worker_agents.filter
    (fun w => w.is_employed && decide ((0 : Rat) < w.wage))
  if employed.isEmpty then 0
  else
    let ratios := employed.filterMap (fun w => get_debt_to_income w)
    if ratios.isEmpty then 0 else ratios.sum / ((ratios.length : Nat) : Rat)

/-- The random draws consumed by `SimpleWorkerAgent.__init__`. -/
structure WorkerDraws where
  skill_u : Rat
  initial_wealth : Rat
  cap_draw : Rat
  rate_draw : Rat
  prod_draw : Rat
  own_u : Rat

/-- `SimpleCapitalistModel.__init__` (`num_owners` left at its default 0):
no size validation is performed; workers are created for ids in
`range(num_workers)` (empty for non-positive counts) and firms likewise.
The trailing `datacollector.collect(self)` cannot raise (each reporter is
wrapped in a bare `try/except` that substitutes 0), but the final
`logger.info` f-string computes `firm_owners / num_workers * 100` and
raises `ZeroDivisionError` exactly when `num_workers == 0`, modelled as
`none`. -/
def modelInit (num_workers num_firms : Int) (wd : Nat → WorkerDraws)
    (fd : Nat → FirmDraws) : Option Model :=
  let n := num_workers.toNat
  let ws := (List.range n).map (fun i =>
    Worker.create i 40 (wd i).skill_u (wd i).initial_wealth (wd i).cap_draw
      (wd i).rate_draw (wd i).prod_draw (wd i).own_u)
  let fs := (List.range num_firms.toNat).map (fun (i : Nat) =>
    Firm.create (num_workers + (i : Int)) (fd i))
  if num_workers = 0 then none
  else
    some { num_workers := num_workers
           num_firms := num_firms
           num_owners := 0
           price_index := 1
           inflation_rate := 0.02
           employed_workers := []
           unemployed_workers := List.range n
           worker_agents := ws
           firm_agents := fs }

/-!  ### Theorems  -/

/-- The Gini estimator exactly as the specification words it: with
`x[0..n-1]` the sorted ascending wealth values, let
`B = Σ_i x[i]*(n-i) / (n*Σ x)` and return `1 + 1/n - 2B`.  This spec-side
formulation (stated over the enumerated list) is compared against the
source-side `compute_gini`. -/
def giniEstimator (x : List Rat) : Rat :=
  let n := x.length
  let B := ((x.enum.map (fun p => p.2 * ((n : Rat) - (p.1 : Rat)))).sum)
    / ((n : Rat) * x.sum)
  1 + 1 / (n : Rat) - 2 * B

lemma giniB_enumFrom (x : List Rat) (n : Rat) (j : Nat) :
    giniB x n (j : Rat)
      = ((List.enumFrom j x).map (fun p => p.2 * (n - (p.1 : Rat)))).sum := by
  induction x generalizing j with
  | nil => simp [giniB]
  | cons a t ih =>
    have hj : ((j : Rat) + 1) = ((j + 1 : Nat) : Rat) := by push_cast; ring
    simp only [giniB, List.enumFrom, List.map, List.sum_cons, hj, ih (j + 1)]

lemma giniB_replicate (k : Nat) (c n i : Rat) :
    giniB (List.replicate k c) n i
      = c * ((k : Rat) * (n - i) - (k : Rat) * ((k : Rat) - 1) / 2) := by
  induction k generalizing i with
  | zero => simp [giniB]
  | succ k ih =>
    simp only [List.replicate_succ, giniB, ih (i + 1)]
    push_cast
    ring

lemma insertionSort_replicate (n : Nat) (c : Rat) :
    (List.replicate n c).insertionSort (fun a b => a ≤ b)
      = List.replicate n c := by
  have hperm :=
    List.perm_insertionSort (fun a b : Rat => a ≤ b) (List.replicate n c)
  refine List.eq_replicate_iff.mpr ⟨?_, ?_⟩
  · simp [hperm.length_eq]
  · intro b hb
    exact List.eq_of_mem_replicate (hperm.mem_iff.mp hb)

/-- C1: `compute_gini` computes exactly the stated estimator
`1 + 1/n - 2B` with `B = Σ_i x[i]*(n-i) / (n*Σx)` over the ascending
wealth values (whenever the estimator's denominator is nonzero), and for
every population whose wealth values are all identical and strictly
positive it returns 0. -/
theorem compute_gini_estimator_and_perfect_equality :
    (∀ xs : List Rat, (xs.length : Rat) * xs.sum ≠ 0 →
        compute_gini xs
          = some (giniEstimator (xs.insertionSort (fun a b => a ≤ b)))) ∧
    (∀ (n : Nat) (c : Rat), 0 < n → 0 < c →
        compute_gini (List.replicate n c) = some 0) := by
  have hmain : ∀ xs : List Rat, (xs.length : Rat) * xs.sum ≠ 0 →
      compute_gini xs
        = some (giniEstimator (xs.insertionSort (fun a b => a ≤ b))) := by
    intro xs hne
    have hlen : (xs.insertionSort (fun a b : Rat => a ≤ b)).length
        = xs.length :=
      List.length_insertionSort (fun a b : Rat => a ≤ b) xs
    have hsum : (xs.insertionSort (fun a b : Rat => a ≤ b)).sum = xs.sum :=
      (List.perm_insertionSort (fun a b : Rat => a ≤ b) xs).sum_eq
    have hB := giniB_enumFrom (xs.insertionSort (fun a b : Rat => a ≤ b))
      ((xs.length : Nat) : Rat) 0
    simp only [compute_gini, giniEstimator, List.enum, hlen, hsum]
    rw [if_neg hne]
    simp only [Nat.cast_zero] at hB
    rw [hB]
  constructor
  · exact hmain
  · intro n c hn hc
    have hlen : ((List.replicate n c).length : Rat) = (n : Rat) := by simp
    have hsum : (List.replicate n c).sum = (n : Rat) * c := by
      simp [List.sum_replicate, nsmul_eq_mul]
    have hnz : ((List.replicate n c).length : Rat)
        * (List.replicate n c).sum ≠ 0 := by
      rw [hlen, hsum]
      have h1 : (0 : Rat) < (n : Rat) := by exact_mod_cast hn
      positivity
    rw [hmain (List.replicate n c) hnz]
    simp only [giniEstimator, insertionSort_replicate]
    have hB := giniB_enumFrom (List.replicate n c)
      (((List.replicate n c).length : Nat) : Rat) 0
    simp only [Nat.cast_zero] at hB
    rw [List.enum, ← hB, giniB_replicate]
    have h1 : (0 : Rat) < (n : Rat) := by exact_mod_cast hn
    simp only [List.length_replicate, List.sum_replicate, nsmul_eq_mul]
    rw [sub_zero]
    field_simp
    ring

/-- Witness for C1 at the concrete Scenario A population: two workers,
each with wealth 1000. -/
theorem compute_gini_perfect_equality_witness :
    0 < 2 ∧ (0 : Rat) < 1000 ∧
      compute_gini (List.replicate 2 (1000 : Rat)) = some 0 :=
  ⟨by norm_num, by norm_num,
    compute_gini_estimator_and_perfect_equality.2 2 1000 (by norm_num)
      (by norm_num)⟩

/-- C2 counterexample: in a population of two workers whose wealth is all
0, `compute_gini` hits the division by zero and raises (`none`), instead
of returning a defined sentinel value as the claim states. -/
theorem compute_gini_all_zero_wealth_raises :
    compute_gini [(0 : Rat), 0] = none := by
  simp [compute_gini]

/-- C2 (amended): the three ratio queries degrade to the sentinel 0 on
their numeric degeneracies (non-positive total output, empty employed
set, no qualifying worker), but `compute_gini` raises a
`ZeroDivisionError` (modelled `none`) exactly when `n * Σ wealth = 0` —
in particular when every worker's wealth is 0 — rather than returning a
sentinel. -/
theorem aggregate_query_failure_semantics :
    (∀ m : Model,
      (m.worker_agents.map Worker.wage).sum
          + (m.firm_agents.map Firm.total_surplus_value).sum ≤ 0 →
        get_wage_share m = 0) ∧
    (∀ m : Model,
      (m.worker_agents.filter (fun w => w.is_employed)).isEmpty = true →
        get_avg_exploitation_rate m = 0) ∧
    (∀ m : Model,
      (m.worker_agents.filter
          (fun w => w.is_employed && decide ((0 : Rat) < w.wage))).isEmpty
          = true →
        get_avg_debt_to_income m = 0) ∧
    (∀ xs : List Rat,
      compute_gini xs = none ↔ (xs.length : Rat) * xs.sum = 0) := by
  refine ⟨?_, ?_, ?_, ?_⟩
  · intro m h
    simp only [get_wage_share]
    rw [if_neg (not_lt.mpr h)]
  · intro m h
    simp only [get_avg_exploitation_rate, h, if_true]
  · intro m h
    simp only [get_avg_debt_to_income, h, if_true]
  · intro xs
    have hlen : (xs.insertionSort (fun a b : Rat => a ≤ b)).length
        = xs.length :=
      List.length_insertionSort (fun a b : Rat => a ≤ b) xs
    have hsum : (xs.insertionSort (fun a b : Rat => a ≤ b)).sum = xs.sum :=
      (List.perm_insertionSort (fun a b : Rat => a ≤ b) xs).sum_eq
    simp only [compute_gini, hlen, hsum]
    split_ifs with h
    · simp [h]
    · simp [h]

/-- A degenerate concrete economy: one unemployed worker with zero wage
and wealth, and no firms. -/
def degenerateModel : Model :=
  { num_workers := 1
    num_firms := 0
    num_owners := 0
    price_index := 1
    inflation_rate := 0.02
    employed_workers := []
    unemployed_workers := [0]
    worker_agents := [defaultWorker]
    firm_agents := [] }

/-- Witness for the amended C2 at a concrete degenerate model: an economy
with one unemployed worker of zero wage and no firms, and the all-zero
wealth list. -/
theorem aggregate_query_failure_semantics_witness :
    get_wage_share degenerateModel = 0 ∧
    get_avg_exploitation_rate degenerateModel = 0 ∧
    get_avg_debt_to_income degenerateModel = 0 ∧
    (compute_gini [(0 : Rat), 0] = none ↔
      ((([(0 : Rat), 0] : List Rat).length : Rat)
        * ([(0 : Rat), 0] : List Rat).sum = 0)) :=
  ⟨aggregate_query_failure_semantics.1 degenerateModel
      (by norm_num [degenerateModel, defaultWorker]),
   aggregate_query_failure_semantics.2.1 degenerateModel
      (by norm_num [degenerateModel, defaultWorker]),
   aggregate_query_failure_semantics.2.2.1 degenerateModel
      (by norm_num [degenerateModel, defaultWorker]),
   aggregate_query_failure_semantics.2.2.2 [(0 : Rat), 0]⟩

/-- A low-skill worker unemployed for 20 weeks with no debt, working the
default 40 hours. -/
def longUnemployedWorker20 : Worker :=
  { defaultWorker with skill_level := Skill.low, weeks_unemployed := 20 }

/-- A low-skill worker unemployed for 30 weeks with no debt. -/
def longUnemployedWorker30 : Worker :=
  { defaultWorker with skill_level := Skill.low, weeks_unemployed := 30 }

/-- C4: the claimed reservation-wage floor does not hold.  The source
computes the unemployment desperation factor as
`min(0.7, 1 - weeks_unemployed * 0.05)`, so 0.7 is an upper bound, not a
lower bound: after 20 weeks of unemployment the factor reaches 0 and the
reservation wage of a low-skill worker is 0 (and after 30 weeks it is
-160), strictly below the claimed floor `0.7 * 0.6 * 8 * 40 = 134.4`.
(The debt factor `max(0.6, ...)` is a genuine floor; the spec describes
the intended behavior and the `min` is a slip.) -/
theorem reservation_wage_floor_violated :
    Worker.get_reservation_wage longUnemployedWorker20 = 0 ∧
    Worker.get_reservation_wage longUnemployedWorker30 = -160 ∧
    ¬ ((0.7 : Rat) * 0.6 * 8 * 40
        ≤ Worker.get_reservation_wage longUnemployedWorker20) := by
  refine ⟨?_, ?_, ?_⟩ <;>
    norm_num [Worker.get_reservation_wage, Worker.base_reservation,
      longUnemployedWorker20, longUnemployedWorker30, defaultWorker,
      min_def, max_def]

/-- The Scenario B worker: unemployed, wealth 0, debt 0, basic needs 500,
with an annual interest rate of 26%. -/
def scenarioBWorker : Worker :=
  { defaultWorker with
      skill_level := Skill.medium
      interest_rate := 0.26
      debt_capacity := 10000 }

/-- C5 counterexample: for the Scenario B worker, one `step()` leaves
`debt = 502.5`, not `500` as the claim states: `handle_debt_mechanics`
accrues one week of interest on the newly incurred needs debt within the
same step. -/
theorem scenarioB_step_debt_not_500 :
    (Worker.step scenarioBWorker 1 1).debt = 502.5 ∧
    ((502.5 : Rat) ≠ 500) := by
  constructor
  · norm_num [Worker.step, Worker.handle_debt_mechanics,
      Worker.calculate_financial_stress, Worker.get_unmet_needs,
      Worker.decay_rate, scenarioBWorker, defaultWorker, min_def, max_def]
  · norm_num

/-- C5 (amended): for an unemployed worker with wealth 0, debt 0 and
basic needs 500, one `step()` converts the full needs shortfall into debt
and then accrues one week of interest on it: the final debt is
`500 * (1 + interest_rate / 52)` and wealth stays 0. -/
theorem scenarioB_step_amended (w : Worker) (gu gd : Rat)
    (he : w.is_employed = false) (hw : w.wealth = 0) (hd : w.debt = 0)
    (hb : w.basic_needs = 500) :
    (Worker.step w gu gd).debt = 500 * (1 + w.interest_rate / 52) ∧
    (Worker.step w gu gd).wealth = 0 := by
  have hpay : ¬ (max ((500 + 500 * (w.interest_rate / 52)) * 0.02) 20
      ≤ (0 : Rat)) := by
    intro hcon
    have h20 : (20 : Rat)
        ≤ max ((500 + 500 * (w.interest_rate / 52)) * 0.02) 20 :=
      le_max_right _ _
    linarith
  simp only [Worker.step, Worker.handle_debt_mechanics,
    Worker.calculate_financial_stress, Worker.get_unmet_needs,
    Worker.decay_rate, he, hw, hd, hb]
  norm_num [hpay]
  ring

/-- Witness for the amended C5 at the concrete Scenario B worker. -/
theorem scenarioB_step_amended_witness :
    scenarioBWorker.is_employed = false ∧ scenarioBWorker.wealth = 0 ∧
    scenarioBWorker.debt = 0 ∧ scenarioBWorker.basic_needs = 500 ∧
    ((Worker.step scenarioBWorker 1 1).debt
        = 500 * (1 + scenarioBWorker.interest_rate / 52) ∧
      (Worker.step scenarioBWorker 1 1).wealth = 0) :=
  ⟨rfl, rfl, rfl, rfl,
    scenarioB_step_amended scenarioBWorker 1 1 rfl rfl rfl rfl⟩

/-- A worker currently employed at some firm. -/
def employedWorker : Worker :=
  { defaultWorker with
      is_employed := true
      wage := 15
      employer := some 100
      wealth := 2000 }

lemma work_for_firm_of_employed (w : Worker) (fuid : Int)
    (fprofit rate tax share : Rat) (h : w.is_employed = true) :
    Worker.work_for_firm w fuid fprofit rate tax share = w := by
  simp [Worker.work_for_firm, h]

/-- C7: `work_for_firm` is a no-op on an already-employed worker: every
field of the worker is left unchanged, whatever firm and wage are
offered. -/
theorem work_for_firm_noop_when_employed (w : Worker) (fuid : Int)
    (fprofit rate tax share : Rat) (h : w.is_employed = true) :
    Worker.work_for_firm w fuid fprofit rate tax share = w :=
  work_for_firm_of_employed w fuid fprofit rate tax share h

/-- Witness for C7 at a concrete employed worker. -/
theorem work_for_firm_noop_when_employed_witness :
    employedWorker.is_employed = true ∧
    Worker.work_for_firm employedWorker 0 1000 99 0.1 0.02
      = employedWorker :=
  ⟨rfl, work_for_firm_noop_when_employed employedWorker 0 1000 99 0.1 0.02
    rfl⟩

/-- Proof-side decomposition of `Worker.step`: the financial-stress and
needs-payment phase (everything before `handle_debt_mechanics`). -/
def needs_phase (w : Worker) : Worker :=
  let w0 := { w with financial_stress := Worker.calculate_financial_stress w }
  if ¬ w0.is_employed then
    let wa := { w0 with weeks_unemployed := w0.weeks_unemployed + 1 }
    if wa.basic_needs ≤ wa.wealth then
      { wa with wealth := wa.wealth - wa.basic_needs }
    else
      { wa with debt := wa.debt + (wa.basic_needs - wa.wealth), wealth := 0 }
  else
    if w0.basic_needs ≤ w0.wealth then
      { w0 with wealth := w0.wealth - w0.basic_needs }
    else w0

/-- Proof-side decomposition of `Worker.step`: the wealth-decay and
stochastic-growth phase (everything after `handle_debt_mechanics`). -/
def step_tail (y : Worker) (gu gd : Rat) : Worker :=
  let w3 :=
    if ¬ y.is_employed ∧ 0 < y.wealth then
      { y with wealth := y.wealth * (1 - Worker.decay_rate y.skill_level) }
    else y
  if w3.skill_level = Skill.high ∧ 10000 < w3.wealth ∧ gu < 0.3 then
    { w3 with wealth := w3.wealth * gd }
  else w3

lemma step_eq_phases (w : Worker) (gu gd : Rat) :
    Worker.step w gu gd
      = step_tail (Worker.handle_debt_mechanics (needs_phase w)) gu gd := rfl

lemma needs_phase_nonneg (w : Worker) (hw : 0 ≤ w.wealth)
    (hd : 0 ≤ w.debt) :
    0 ≤ (needs_phase w).wealth ∧ 0 ≤ (needs_phase w).debt := by
  simp only [needs_phase]
  split_ifs with h1 h2 h3 <;> constructor <;> simp <;> linarith

lemma needs_phase_interest (w : Worker) :
    (needs_phase w).interest_rate = w.interest_rate := by
  simp only [needs_phase]
  split_ifs <;> rfl

lemma needs_phase_capacity (w : Worker) :
    (needs_phase w).debt_capacity = w.debt_capacity := by
  simp only [needs_phase]
  split_ifs <;> rfl

lemma handle_debt_mechanics_nonneg (w : Worker) (hw : 0 ≤ w.wealth)
    (hd : 0 ≤ w.debt) (hr : 0 ≤ w.interest_rate)
    (hc : 0 ≤ w.debt_capacity) :
    0 ≤ (Worker.handle_debt_mechanics w).wealth ∧
    0 ≤ (Worker.handle_debt_mechanics w).debt := by
  have hr52 : (0 : Rat) ≤ w.interest_rate / 52 := by positivity
  have hint : (0 : Rat) ≤ w.debt * (w.interest_rate / 52) :=
    mul_nonneg hd hr52
  simp only [Worker.handle_debt_mechanics]
  split_ifs with h1 h2 h3 h4 <;> constructor <;> (try dsimp only) <;>
    first
      | linarith
      | nlinarith [min_le_left
            (max ((w.debt + w.debt * (w.interest_rate / 52)) * 0.02) 20)
            (w.debt + w.debt * (w.interest_rate / 52)),
          min_le_right
            (max ((w.debt + w.debt * (w.interest_rate / 52)) * 0.02) 20)
            (w.debt + w.debt * (w.interest_rate / 52))]

lemma decay_factor_nonneg (s : Skill) : (0 : Rat) ≤ 1 - Worker.decay_rate s := by
  cases s <;> norm_num [Worker.decay_rate]

lemma step_tail_nonneg (y : Worker) (gu gd : Rat) (hyw : 0 ≤ y.wealth)
    (hyd : 0 ≤ y.debt) (hg : 0 ≤ gd) :
    0 ≤ (step_tail y gu gd).wealth ∧ 0 ≤ (step_tail y gu gd).debt := by
  simp only [step_tail]
  split_ifs <;> constructor <;> (try dsimp only) <;>
    first
      | linarith
      | exact mul_nonneg hyw (decay_factor_nonneg _)
      | exact mul_nonneg hyw hg
      | exact mul_nonneg (mul_nonneg hyw (decay_factor_nonneg _)) hg

lemma work_for_firm_nonneg (w : Worker) (fuid : Int)
    (fp rate tax share : Rat) (hw : 0 ≤ w.wealth) (hd : 0 ≤ w.debt)
    (hrate : 0 ≤ rate) (hh : 0 ≤ w.work_hours) (ht0 : 0 ≤ tax)
    (ht1 : tax ≤ 1) (hs : 0 ≤ share) :
    0 ≤ (Worker.work_for_firm w fuid fp rate tax share).wealth ∧
    0 ≤ (Worker.work_for_firm w fuid fp rate tax share).debt := by
  have hnet : (0 : Rat) ≤ rate * w.work_hours - rate * w.work_hours * tax := by
    have h1 : (0 : Rat) ≤ rate * w.work_hours := mul_nonneg hrate hh
    nlinarith
  simp only [Worker.work_for_firm]
  split_ifs with h1 h2 <;> constructor <;> (try dsimp only) <;>
    first
      | linarith
      | nlinarith [mul_nonneg (le_of_lt h2.2) hs]

/-- C6: every path of `Worker.step` (needs payment, interest accrual,
minimum debt payment, bankruptcy clamp, wealth decay, stochastic growth)
and the hire/pay path `work_for_firm` preserve non-negativity of both
`wealth` and `debt`, given the creation-range side conditions (nonneg
interest rate, debt capacity, growth factor, wage rate, hours, ownership
share, and a tax rate in [0, 1]). -/
theorem worker_nonneg_invariant (w : Worker) (gu gd : Rat) (fuid : Int)
    (fp rate tax share : Rat) (hw : 0 ≤ w.wealth) (hd : 0 ≤ w.debt)
    (hr : 0 ≤ w.interest_rate) (hc : 0 ≤ w.debt_capacity) (hg : 0 ≤ gd)
    (hrate : 0 ≤ rate) (hh : 0 ≤ w.work_hours) (ht0 : 0 ≤ tax)
    (ht1 : tax ≤ 1) (hs : 0 ≤ share) :
    (0 ≤ (Worker.step w gu gd).wealth ∧ 0 ≤ (Worker.step w gu gd).debt) ∧
    (0 ≤ (Worker.work_for_firm w fuid fp rate tax share).wealth ∧
      0 ≤ (Worker.work_for_firm w fuid fp rate tax share).debt) := by
  rw [step_eq_phases]
  obtain ⟨h1w, h1d⟩ := needs_phase_nonneg w hw hd
  obtain ⟨h2w, h2d⟩ := handle_debt_mechanics_nonneg (needs_phase w) h1w h1d
    (by rw [needs_phase_interest]; exact hr)
    (by rw [needs_phase_capacity]; exact hc)
  exact ⟨step_tail_nonneg _ gu gd h2w h2d hg,
    work_for_firm_nonneg w fuid fp rate tax share hw hd hrate hh ht0 ht1 hs⟩

/-- Witness for C6 at the concrete Scenario B worker with a concrete
wage offer. -/
theorem worker_nonneg_invariant_witness :
    ((0 : Rat) ≤ scenarioBWorker.wealth ∧ (0 : Rat) ≤ scenarioBWorker.debt ∧
      (0 : Rat) ≤ scenarioBWorker.interest_rate ∧
      (0 : Rat) ≤ scenarioBWorker.debt_capacity ∧
      (0 : Rat) ≤ scenarioBWorker.work_hours) ∧
    (0 ≤ (Worker.step scenarioBWorker 1 1.002).wealth ∧
      0 ≤ (Worker.step scenarioBWorker 1 1.002).debt) ∧
    (0 ≤ (Worker.work_for_firm scenarioBWorker 2 0 10 0.1 0.02).wealth ∧
      0 ≤ (Worker.work_for_firm scenarioBWorker 2 0 10 0.1 0.02).debt) :=
  ⟨⟨by norm_num [scenarioBWorker, defaultWorker],
    by norm_num [scenarioBWorker, defaultWorker],
    by norm_num [scenarioBWorker, defaultWorker],
    by norm_num [scenarioBWorker, defaultWorker],
    by norm_num [scenarioBWorker, defaultWorker]⟩,
   worker_nonneg_invariant scenarioBWorker 1 1.002 2 0 10 0.1 0.02
    (by norm_num [scenarioBWorker, defaultWorker])
    (by norm_num [scenarioBWorker, defaultWorker])
    (by norm_num [scenarioBWorker, defaultWorker])
    (by norm_num [scenarioBWorker, defaultWorker])
    (by norm_num) (by norm_num)
    (by norm_num [scenarioBWorker, defaultWorker])
    (by norm_num) (by norm_num) (by norm_num)⟩

/-- A sequence of steps in which firing is the only roster change: the
firing branch of `_make_employment_decisions` applied once per step with
that step's random draws. -/
def firing_only_run (f : Firm) (m : Model) (draws : List (Rat × Nat)) :
    Firm × Model :=
  draws.foldl (fun p d => Firm.firing_decision p.1 p.2 d.1 d.2) (f, m)

lemma firing_decision_length (f : Firm) (m : Model) (u : Rat) (c : Nat)
    (h5 : 5 ≤ f.workers.length) :
    5 ≤ (Firm.firing_decision f m u c).1.workers.length := by
  simp only [Firm.firing_decision, Firm.fire_worker]
  split_ifs with h1 h2 h3 h4 <;>
    first
      | exact h5
      | (dsimp only; rw [List.length_erase_of_mem h3]; omega)

lemma firing_only_run_length : ∀ (draws : List (Rat × Nat)) (f : Firm)
    (m : Model), 5 ≤ f.workers.length →
    5 ≤ (firing_only_run f m draws).1.workers.length
  | [], f, m, h => by simpa [firing_only_run] using h
  | d :: rest, f, m, h => by
    have h1 := firing_decision_length f m d.1 d.2 h
    have h2 := firing_only_run_length rest (Firm.firing_decision f m d.1 d.2).1
      (Firm.firing_decision f m d.1 d.2).2 h1
    simpa [firing_only_run, List.foldl_cons] using h2

/-- C8: a firm fires only when `profit < -500` and the roster holds
strictly more than 5 workers (otherwise the firing branch changes
nothing), and over any sequence of steps in which firing is the only
roster change a roster of at least 5 workers never falls below 5. -/
theorem firing_guard_and_roster_floor :
    (∀ (f : Firm) (m : Model) (u : Rat) (c : Nat),
      ¬ (f.profit < -500 ∧ 5 < f.workers.length) →
        Firm.firing_decision f m u c = (f, m)) ∧
    (∀ (f : Firm) (m : Model) (draws : List (Rat × Nat)),
      5 ≤ f.workers.length →
        5 ≤ (firing_only_run f m draws).1.workers.length) := by
  constructor
  · intro f m u c h
    simp only [Firm.firing_decision]
    rw [if_neg h]
  · intro f m draws h
    exact firing_only_run_length draws f m h

/-- A loss-making firm with a roster of exactly 6 workers (Scenario D). -/
def lossFirm : Firm :=
  { unique_id := 100
    capital := 100000
    profit := -600
    total_surplus_value := 0
    wages_paid := 0
    taxes_paid := 0
    workers := [0, 1, 2, 3, 4, 5]
    max_workers := 30
    preferred_skill_mix := fun _ => 1 / 3
    wage_rates := fun _ => 10
    tax_rate := 0.25
    wage_share := 0.7
    surplus_value_rate := 0.3
    productivity_factor := 1
    base_wage_rate := 15
    demand_multiplier := 1
    hiring_aggressiveness := 0.5
    firing_threshold := 0.15 }

/-- The same firm with non-negative profit, so the firing guard fails. -/
def profitableFirm : Firm := { lossFirm with profit := 0 }

/-- Witness for C8: the profitable firm's firing branch is the identity,
and the Scenario D firm's roster stays at 5 or more over two consecutive
firing-only steps whose draws both fire a worker. -/
theorem firing_guard_and_roster_floor_witness :
    (¬ (profitableFirm.profit < -500 ∧ 5 < profitableFirm.workers.length) ∧
      Firm.firing_decision profitableFirm degenerateModel 0 0
        = (profitableFirm, degenerateModel)) ∧
    (5 ≤ lossFirm.workers.length ∧
      5 ≤ (firing_only_run lossFirm degenerateModel
        [(0.1, 2), (0.2, 0)]).1.workers.length) :=
  ⟨⟨by norm_num [profitableFirm, lossFirm],
    firing_guard_and_roster_floor.1 profitableFirm degenerateModel 0 0
      (by norm_num [profitableFirm, lossFirm])⟩,
   ⟨by norm_num [lossFirm],
    firing_guard_and_roster_floor.2 lossFirm degenerateModel
      [(0.1, 2), (0.2, 0)] (by norm_num [lossFirm])⟩⟩

lemma set_getD_self {α : Type} (l : List α) (i : Nat) (d : α)
    (h : i < l.length) : l.set i (l.getD i d) = l := by
  induction l generalizing i with
  | nil => simp at h
  | cons a t ih =>
    cases i with
    | zero => simp [List.getD]
    | succ j =>
      have hj : j < t.length := by simpa using h
      simp [List.set, List.getD_cons_succ]
      simpa [List.getD] using ih j hj

lemma production_loop_frame (roster : List Nat) (f : Firm) (m : Model)
    (draws : Nat → Firm.PayDraws) (k : Nat) (total : Rat)
    (hemp : ∀ wid ∈ roster, (m.getWorker wid).is_employed = true)
    (hrange : ∀ wid ∈ roster, wid < m.worker_agents.length) :
    (Firm.production_loop roster f m draws k total).2.2 = m ∧
    (Firm.production_loop roster f m draws k total).2.1.wages_paid
      = f.wages_paid
        + (roster.map (fun wid => (m.getWorker wid).wage)).sum := by
  induction roster generalizing f k total with
  | nil => simp [Firm.production_loop]
  | cons wid rest ih =>
    have hw : (m.getWorker wid).is_employed = true := hemp wid (by simp)
    have hr : wid < m.worker_agents.length := hrange wid (by simp)
    have hnoop : Worker.work_for_firm (m.getWorker wid) f.unique_id f.profit
        (Firm.calculate_worker_wage_offer f m wid (draws k).mult_hi
            (draws k).mult_lo / (m.getWorker wid).work_hours)
        (draws k).tax_draw (draws k).share_draw = m.getWorker wid :=
      work_for_firm_of_employed _ _ _ _ _ _ hw
    have hset : m.setWorker wid (m.getWorker wid) = m := by
      have h1 := set_getD_self m.worker_agents wid defaultWorker hr
      simp only [Model.setWorker, Model.getWorker]
      rw [h1]
    have hstep : Firm.production_loop (wid :: rest) f m draws k total
        = Firm.production_loop rest
            { f with wages_paid := f.wages_paid + (m.getWorker wid).wage }
            m draws (k + 1)
            (total + Worker.get_productive_value (m.getWorker wid)) := by
      simp only [Firm.production_loop, hnoop, hset]
    rw [hstep]
    obtain ⟨h1, h2⟩ := ih
      { f with wages_paid := f.wages_paid + (m.getWorker wid).wage } (k + 1)
      (total + Worker.get_productive_value (m.getWorker wid))
      (fun x hx => hemp x (by simp [hx]))
      (fun x hx => hrange x (by simp [hx]))
    refine ⟨h1, ?_⟩
    rw [h2]
    simp [add_assoc]

/-- C10: when every roster worker is already employed, the production
loop of `FirmAgent.step` leaves every worker exactly as it was (the
per-worker `work_for_firm` returns immediately), so no wage income is
credited to a retained worker, and the firm's `wages_paid` accumulates
each retained worker's stored hourly `wage` field — not a freshly paid
weekly amount. -/
theorem production_pays_stored_wage (f : Firm) (m : Model)
    (draws : Nat → Firm.PayDraws)
    (hemp : ∀ wid ∈ f.workers, (m.getWorker wid).is_employed = true)
    (hrange : ∀ wid ∈ f.workers, wid < m.worker_agents.length) :
    (Firm.produce f m draws).2 = m ∧
    (Firm.produce f m draws).1.wages_paid
      = (f.workers.map (fun wid => (m.getWorker wid).wage)).sum := by
  obtain ⟨h1, h2⟩ := production_loop_frame f.workers
    { f with total_surplus_value := 0, wages_paid := 0 } m draws 0 0
    hemp hrange
  simp only [Firm.produce]
  exact ⟨h1, by rw [h2]; simp⟩

/-- A one-worker firm whose single roster worker is employed, and the
matching one-worker economy. -/
def smallFirm : Firm := { lossFirm with workers := [0], profit := 0 }

/-- The economy holding just the employed worker of `smallFirm`. -/
def smallModel : Model :=
  { degenerateModel with
      worker_agents := [employedWorker]
      employed_workers := [0]
      unemployed_workers := [] }

/-- A fixed bundle of per-worker production draws. -/
def unitPayDraws : Firm.PayDraws :=
  { mult_hi := 1.2, mult_lo := 0.9, tax_draw := 0.1, share_draw := 0.02 }

/-- Witness for C10 at the one-employed-worker firm: production leaves
the economy untouched and pays out exactly the stored hourly wage 15. -/
theorem production_pays_stored_wage_witness :
    ((∀ wid ∈ smallFirm.workers,
        (smallModel.getWorker wid).is_employed = true) ∧
      (∀ wid ∈ smallFirm.workers, wid < smallModel.worker_agents.length)) ∧
    ((Firm.produce smallFirm smallModel (fun _ => unitPayDraws)).2
        = smallModel ∧
      (Firm.produce smallFirm smallModel
          (fun _ => unitPayDraws)).1.wages_paid
        = (smallFirm.workers.map
            (fun wid => (smallModel.getWorker wid).wage)).sum) :=
  ⟨⟨by
      intro wid hwid
      simp only [smallFirm, lossFirm] at hwid
      simp at hwid
      subst hwid
      simp [smallModel, degenerateModel, Model.getWorker, employedWorker,
        defaultWorker],
    by
      intro wid hwid
      simp only [smallFirm, lossFirm] at hwid
      simp at hwid
      subst hwid
      simp [smallModel, degenerateModel]⟩,
   production_pays_stored_wage smallFirm smallModel (fun _ => unitPayDraws)
    (by
      intro wid hwid
      simp only [smallFirm, lossFirm] at hwid
      simp at hwid
      subst hwid
      simp [smallModel, degenerateModel, Model.getWorker, employedWorker,
        defaultWorker])
    (by
      intro wid hwid
      simp only [smallFirm, lossFirm] at hwid
      simp at hwid
      subst hwid
      simp [smallModel, degenerateModel])⟩

/-- An unemployed low-skill candidate with no debt. -/
def candidateWorker : Worker := { defaultWorker with skill_level := Skill.low }

/-- A firm one hire short of its capacity of 30 (capacities are drawn
from `randint(30, 80)` at creation): 29 distinct rostered workers. -/
def crowdedFirm : Firm :=
  { lossFirm with workers := List.range 29, max_workers := 30, profit := 0 }

/-- The economy around `crowdedFirm`: its 29 employed workers and one
unemployed candidate with id 29. -/
def crowdedModel : Model :=
  { degenerateModel with
      worker_agents := List.replicate 29 employedWorker ++ [candidateWorker]
      employed_workers := List.range 29
      unemployed_workers := [29] }

/-- C3: the roster bound `|workers| ≤ max_workers` is violated by the
hiring loop.  `should_hire_worker` already calls `hire_worker` itself on
a successful draw, and `_make_employment_decisions` then calls
`hire_worker` a second time for the same candidate, appending the worker
to the roster twice: starting from 29 workers with `max_workers = 30`,
one accepted candidate (draw `u = 0`) leaves a roster of 31. -/
theorem roster_bound_violated_by_double_hire :
    crowdedFirm.max_workers = 30 ∧
    crowdedFirm.workers.length = 29 ∧
    (Firm.hiring_iteration crowdedFirm crowdedModel 29 0 1.2 0.9 0.1 0.02
        1.2 0.9 0.1 0.02).1.workers.length = 31 := by
  refine ⟨rfl, by simp [crowdedFirm, lossFirm], ?_⟩
  with_unfolding_all rfl

/-- A fixed bundle of worker-creation draws inside the source ranges. -/
def unitWorkerDraws : WorkerDraws :=
  { skill_u := 0.5, initial_wealth := 1000, cap_draw := 8000,
    rate_draw := 0.15, prod_draw := 1.0, own_u := 0.5 }

/-- A fixed bundle of firm-creation draws inside the source ranges. -/
def unitFirmDraws : FirmDraws :=
  { capital := 100000, max_workers := 40, pref_high := 0.2,
    pref_medium := 0.3, pref_low := 0.5, rate_high := 30, rate_medium := 20,
    rate_low := 10, tax_rate := 0.25, wage_share := 0.7,
    productivity_factor := 1, base_wage_rate := 15, demand_multiplier := 1,
    hiring_aggressiveness := 0.5, firing_threshold := 0.15 }

/-- C9: `SimpleCapitalistModel.__init__` performs no population-size
validation.  `num_workers = -1` is silently accepted (an economy with no
workers is constructed), `num_firms = 0` with a positive worker count is
silently accepted (no firms), and `num_workers = 0` aborts only through
the incidental `ZeroDivisionError` raised by the final `logger.info`
percentage computation — not through a descriptive rejection. -/
theorem construction_accepts_invalid_sizes :
    (modelInit (-1) 1 (fun _ => unitWorkerDraws)
        (fun _ => unitFirmDraws)).isSome = true ∧
    ((modelInit (-1) 1 (fun _ => unitWorkerDraws)
        (fun _ => unitFirmDraws)).map
          (fun m => m.worker_agents.length) = some 0) ∧
    (modelInit 3 0 (fun _ => unitWorkerDraws)
        (fun _ => unitFirmDraws)).isSome = true ∧
    ((modelInit 3 0 (fun _ => unitWorkerDraws)
        (fun _ => unitFirmDraws)).map
          (fun m => m.firm_agents.length) = some 0) ∧
    modelInit 0 1 (fun _ => unitWorkerDraws) (fun _ => unitFirmDraws)
      = none := by
  refine ⟨?_, ?_, ?_, ?_, ?_⟩ <;> with_unfolding_all rfl

end MesaSim
